import Mathlib

/-!
Verification of the Qtel GTK4 call audio core: the VOX detector
(src/qtel-gtk4/src vox.cpp), the transmit gate and half/full duplex device
choreography (qtel-call-dialog.cpp), and the sample-rate conversion chain
built in init_audio_pipeline (with INTERNAL_SAMPLE_RATE = 16000, the
default set in qtel-call-dialog.cpp).

The C++ code is shallowly embedded: every definition mirrors one function
of the source.  GLib timeout sources (g_timeout_add / g_source_remove) are
modelled by an explicit list of pending (source id, milliseconds remaining)
pairs together with the next fresh source id; one VEv.tick event is one
millisecond of main-loop time, and a pending source whose remaining time
has elapsed fires its callback on the next tick.  Signals (sigc levelChanged
and stateChanged) are modelled as an emitted event list.  Audio float
samples are modelled as real numbers.
-/

namespace Qtel

/-- The VoxState enum of vox.h. -/
inductive VState where
  | IDLE
  | ACTIVE
  | HANG
deriving DecidableEq

/-- Signals emitted by the Vox detector: levelChanged (an int dB value) and
stateChanged. -/
inductive Sig where
  | levelChanged (db : ℤ)
  | stateChanged (st : VState)
deriving DecidableEq

/-- The state of one Vox instance (fields m_enabled, m_threshold, m_delay,
m_state, m_timer_id of vox.cpp), extended with the state of the GLib main
loop that the instance interacts with: the list of pending timeout sources
(source id and remaining milliseconds) and the next fresh source id.
GLib source ids are positive, so next_id starts at 1 and m_timer_id = 0
means that no timer is armed. -/
structure VoxM where
  m_enabled : Bool
  m_threshold : ℤ
  m_delay : ℕ
  m_state : VState
  m_timer_id : ℕ
  pending : List (ℕ × ℕ)
  next_id : ℕ
deriving DecidableEq

/-- g_source_remove: drop the pending timeout source with the given id. -/
def gSourceRemove (sid : ℕ) (p : List (ℕ × ℕ)) : List (ℕ × ℕ) :=
  p.filter (fun t => t.1 != sid)

/-- The Vox constructor of vox.cpp, paired with an idle main loop. -/
def voxInit : VoxM :=
  { m_enabled := false
    m_threshold := -30
    m_delay := 1000
    m_state := VState.IDLE
    m_timer_id := 0
    pending := []
    next_id := 1 }

/-- Vox::setState: on an actual state change, stop any existing timer
(g_source_remove), arm the hang timer (g_timeout_add m_delay) when the new
state is HANG, and emit stateChanged. -/
def setState (new_state : VState) (s : VoxM) : VoxM × List Sig :=
  if new_state = s.m_state then (s, [])
  else
    let s1 : VoxM := { s with m_state := new_state }
    let s2 : VoxM :=
      if s1.m_timer_id ≠ 0 then
        { s1 with pending := gSourceRemove s1.m_timer_id s1.pending, m_timer_id := 0 }
      else s1
    let s3 : VoxM :=
      if new_state = VState.HANG then
        { s2 with
            pending := s2.pending ++ [(s2.next_id, s2.m_delay)]
            m_timer_id := s2.next_id
            next_id := s2.next_id + 1 }
      else s2
    (s3, [Sig.stateChanged new_state])

/-- Vox::setEnabled: store the flag; on disable, emit levelChanged(-60) and
force the state to IDLE. -/
def setEnabled (enable : Bool) (s : VoxM) : VoxM × List Sig :=
  let s1 : VoxM := { s with m_enabled := enable }
  if enable then (s1, [])
  else
    let r := setState VState.IDLE s1
    (r.1, Sig.levelChanged (-60) :: r.2)

/-- Vox::setThreshold: clamp the threshold to the range -60 .. 0 dB. -/
def setThreshold (threshold_db : ℤ) (s : VoxM) : VoxM :=
  if threshold_db < -60 then { s with m_threshold := -60 }
  else if threshold_db > 0 then { s with m_threshold := 0 }
  else { s with m_threshold := threshold_db }

/-- Vox::setDelay: clamp the hang delay to be non-negative. -/
def setDelay (delay_ms : ℤ) (s : VoxM) : VoxM :=
  if delay_ms < 0 then { s with m_delay := 0 } else { s with m_delay := delay_ms.toNat }

/-- The DC offset loop of Vox::writeSamples: each sample divided by the
count, accumulated. -/
noncomputable def dcOffsetOf (samples : List ℝ) : ℝ :=
  samples.foldl (fun acc x => acc + x / (samples.length : ℝ)) 0

/-- The absolute average level loop of Vox::writeSamples: each sample minus
the DC offset, divided by the count, added with its sign folded away. -/
noncomputable def avgOf (samples : List ℝ) : ℝ :=
  samples.foldl
    (fun acc x =>
      let sample := (x - dcOffsetOf samples) / (samples.length : ℝ)
      if sample > 0 then acc + sample else acc - sample) 0

/-- The C cast static_cast to int: truncation toward zero. -/
noncomputable def truncToZero (x : ℝ) : ℤ :=
  if 0 ≤ x then ⌊x⌋ else ⌈x⌉

/-- The dB conversion of Vox::writeSamples: -60 for a level at or below
0.001, 0 for a level above 1.0, otherwise the int cast of
20 * log10(level). -/
noncomputable def dbLevelOfAvg (avg : ℝ) : ℤ :=
  if avg > 1 then 0
  else if avg > 0.001 then truncToZero (20 * Real.logb 10 avg)
  else -60

/-- The dB level of one block, as computed by Vox::writeSamples. -/
noncomputable def dbLevelOf (samples : List ℝ) : ℤ :=
  dbLevelOfAvg (avgOf samples)

/-- The part of Vox::writeSamples after the level computation, acting on an
already computed dB level: emit levelChanged, then either go ACTIVE (level
above threshold), or go from ACTIVE to HANG, or stay put.  Returns the new
state and the emitted signals.  When the detector is disabled nothing at
all happens (the early return of writeSamples). -/
def writeDb (db : ℤ) (s : VoxM) : VoxM × List Sig :=
  if s.m_enabled = false then (s, [])
  else
    let lv : List Sig := [Sig.levelChanged db]
    if s.m_threshold < db then
      let r := setState VState.ACTIVE s
      (r.1, lv ++ r.2)
    else if s.m_state = VState.ACTIVE then
      let r := setState VState.HANG s
      (r.1, lv ++ r.2)
    else (s, lv)

/-- Vox::writeSamples.  The count argument is the int parameter of the C++
function; assert(count > 0) is modelled by returning none (the assertion
aborts) when count is not positive.  Otherwise the function accepts all
count samples and returns count, the new detector state and the emitted
signals. -/
noncomputable def writeSamples (samples : List ℝ) (count : ℤ) (s : VoxM) :
    Option (ℤ × VoxM × List Sig) :=
  if count ≤ 0 then none
  else some (count, writeDb (dbLevelOf samples) s)

/-- Vox::onTimeout: the hang timer callback clears m_timer_id and forces
IDLE.  The firing source was already removed from the pending list by the
main loop (the callback returns G_SOURCE_REMOVE). -/
def onTimeoutCb (s : VoxM) : VoxM × List Sig :=
  setState VState.IDLE { s with m_timer_id := 0 }

/-- One millisecond of GLib main-loop time: the head pending timeout source
fires (running Vox::onTimeout) if its remaining time is at most one
millisecond, otherwise its remaining time decreases by one. -/
def tick (s : VoxM) : VoxM × List Sig :=
  match s.pending with
  | [] => (s, [])
  | (sid, r) :: rest =>
      if r ≤ 1 then onTimeoutCb { s with pending := rest }
      else ({ s with pending := (sid, r - 1) :: rest }, [])

/-- The events a Vox instance reacts to: a processed audio block whose
computed dB level is db, one millisecond of main-loop time, and the three
configuration setters. -/
inductive VEv where
  | write (db : ℤ)
  | tick
  | enable (b : Bool)
  | threshold (t : ℤ)
  | delay (d : ℤ)
deriving DecidableEq

/-- One event applied to a Vox instance. -/
def step (e : VEv) (s : VoxM) : VoxM :=
  match e with
  | VEv.write db => (writeDb db s).1
  | VEv.tick => (tick s).1
  | VEv.enable b => (setEnabled b s).1
  | VEv.threshold t => setThreshold t s
  | VEv.delay d => setDelay d s

/-- A run of the Vox instance over a list of events. -/
def run (evs : List VEv) (s : VoxM) : VoxM :=
  evs.foldl (fun t e => step e t) s

/-- A Vox state reachable from the freshly constructed instance. -/
def Reachable (s : VoxM) : Prop :=
  ∃ evs : List VEv, run evs voxInit = s

/-- Events that only feed audio and time to the detector (no configuration
change). -/
def isPlain : VEv → Bool
  | VEv.write _ => true
  | VEv.tick => true
  | _ => false

/-- An event is sub-threshold when it is not an audio block whose level is
above the given threshold. -/
def subThr (thr : ℤ) : VEv → Bool
  | VEv.write db => decide (db ≤ thr)
  | _ => true

/-- The number of tick events in a list. -/
def ticksIn : List VEv → ℕ
  | [] => 0
  | VEv.tick :: rest => ticksIn rest + 1
  | _ :: rest => ticksIn rest

/-- The milliseconds remaining on the pending hang timer (0 if none). -/
def hangRemaining (s : VoxM) : ℕ :=
  match s.pending with
  | [] => 0
  | (_, r) :: _ => r

/-- The timer bookkeeping invariant of a Vox instance: source ids are
positive, m_timer_id = 0 exactly when no timeout source is pending, at most
the one source named by m_timer_id is pending, and a timer is armed exactly
in state HANG. -/
def TimerInv (s : VoxM) : Prop :=
  1 ≤ s.next_id ∧
  (s.m_timer_id = 0 → s.pending = []) ∧
  (s.m_timer_id ≠ 0 → s.pending.map Prod.fst = [s.m_timer_id]) ∧
  (s.m_state = VState.HANG ↔ s.m_timer_id ≠ 0)

instance (s : VoxM) : Decidable (TimerInv s) := by
  unfold TimerInv; infer_instance

/-- A run over whole audio blocks, through Vox::writeSamples, collecting
all emitted signals.  A block on which the writeSamples assertion fires
contributes nothing. -/
noncomputable def runBlocks : List (List ℝ) → VoxM → VoxM × List Sig
  | [], s => (s, [])
  | b :: rest, s =>
      match writeSamples b (b.length : ℤ) s with
      | none => runBlocks rest s
      | some r =>
          let q := runBlocks rest r.2.1
          (q.1, r.2.2 ++ q.2)

/-- The connection state enum of qtel-call-dialog.h. -/
inductive ConnState where
  | DISCONNECTED
  | CONNECTING
  | CONNECTED
  | BYE_RECEIVED
deriving DecidableEq

/-- Observable audio-path operations performed by the call dialog: valve
toggles and device open/close calls.  Capture is the mic device, playback
the speaker device. -/
inductive AEv where
  | closeRxValve
  | openRxValve
  | closeCapture
  | openCapture
  | closePlayback
  | openPlayback
  | openTxValve
  | closeTxValve
deriving DecidableEq

/-- The open modes of the device layer. -/
inductive AudioMode where
  | MODE_RD
  | MODE_WR
  | MODE_RDWR
deriving DecidableEq

/-- The audio-relevant state of one QtelCallDialog after init_audio_pipeline
has run (so the device and valve objects exist and the nullptr guards of
the source are all satisfied). -/
structure DialogM where
  state : ConnState
  ptt_pressed : Bool
  vox_enabled : Bool
  vox_state : VState
  is_transmitting : Bool
  is_receiving : Bool
  audio_full_duplex : Bool
  rem_audio_valve_open : Bool
  ptt_valve_open : Bool
  mic_open : Bool
  spkr_open : Bool
  last_audio_activity : ℤ
deriving DecidableEq

/-- open_audio_device of qtel-call-dialog.cpp: MODE_RD opens the mic
(capture) device, MODE_WR opens the speaker (playback) device, MODE_RDWR
opens both (capture first).  Open is modelled as succeeding; on failure the
source only logs a warning, which does not change the audio path state. -/
def open_audio_device (mode : AudioMode) (s : DialogM) : DialogM × List AEv :=
  match mode with
  | AudioMode.MODE_RD => ({ s with mic_open := true }, [AEv.openCapture])
  | AudioMode.MODE_WR => ({ s with spkr_open := true }, [AEv.openPlayback])
  | AudioMode.MODE_RDWR =>
      ({ s with mic_open := true, spkr_open := true },
       [AEv.openCapture, AEv.openPlayback])

/-- set_transmitting of qtel-call-dialog.cpp (CSS indicator updates and
logging omitted).  On a rising edge in half duplex: close the receive
valve, close the mic, close the speaker, open the mic (MODE_RD), then open
the transmit (PTT) valve.  On a falling edge: close the transmit valve
first, then in half duplex close the mic, close the speaker, open the
speaker (MODE_WR) and reopen the receive valve.  No edge: no effect. -/
def set_transmitting (transmit : Bool) (s : DialogM) : DialogM × List AEv :=
  if s.is_transmitting = transmit then (s, [])
  else
    let s0 : DialogM := { s with is_transmitting := transmit }
    if transmit then
      if s0.audio_full_duplex = false then
        let s1 : DialogM := { s0 with rem_audio_valve_open := false }
        let s2 : DialogM := { s1 with mic_open := false }
        let s3 : DialogM := { s2 with spkr_open := false }
        let r4 := open_audio_device AudioMode.MODE_RD s3
        ({ r4.1 with ptt_valve_open := true },
         [AEv.closeRxValve, AEv.closeCapture, AEv.closePlayback] ++ r4.2 ++
           [AEv.openTxValve])
      else
        ({ s0 with ptt_valve_open := true }, [AEv.openTxValve])
    else
      let s1 : DialogM := { s0 with ptt_valve_open := false }
      if s1.audio_full_duplex = false then
        let s2 : DialogM := { s1 with mic_open := false }
        let s3 : DialogM := { s2 with spkr_open := false }
        let r4 := open_audio_device AudioMode.MODE_WR s3
        ({ r4.1 with rem_audio_valve_open := true },
         AEv.closeTxValve :: AEv.closeCapture :: AEv.closePlayback :: r4.2 ++
           [AEv.openRxValve])
      else (s1, [AEv.closeTxValve])

/-- The transmit decision computed by check_transmit of
qtel-call-dialog.cpp: PTT flag, or VOX enabled with a non-IDLE VOX state,
gated on the connection being CONNECTED. -/
def check_transmit_decision (s : DialogM) : Bool :=
  let ptt_active : Bool := s.ptt_pressed
  let vox_active : Bool := s.vox_enabled && decide (s.vox_state ≠ VState.IDLE)
  decide (s.state = ConnState.CONNECTED) && (ptt_active || vox_active)

/-- check_transmit of qtel-call-dialog.cpp: recompute the decision and hand
it to set_transmitting. -/
def check_transmit (s : DialogM) : DialogM × List AEv :=
  set_transmitting (check_transmit_decision s) s

/-- Modelled from the spec (section 3, TransmitDecision): the derived
boolean (connectionState == CONNECTED) && (manualPtt || (voxEnabled &&
voxState != IDLE)), written exactly as the spec words it, for comparison
with the decision the code computes. -/
def spec_transmit_decision (conn : ConnState) (manualPtt voxEnabled : Bool)
    (voxSt : VState) : Bool :=
  decide (conn = ConnState.CONNECTED) &&
    (manualPtt || (voxEnabled && decide (voxSt ≠ VState.IDLE)))

/-- audio_watchdog_callback of qtel-call-dialog.cpp, invoked every second
with the current monotonic time.  It only reads state and refreshes
last_audio_activity while actively receiving; the speaker reopen branch is
commented out in the source (DISABLED), so no device call is made. -/
def audio_watchdog_cb (now : ℤ) (s : DialogM) : DialogM × List AEv :=
  if s.state ≠ ConnState.CONNECTED then (s, [])
  else if s.rem_audio_valve_open = false then (s, [])
  else if s.is_receiving = true then ({ s with last_audio_activity := now }, [])
  else (s, [])

/-- The control events that can reach the audio path during an established
call: a transmit-decision edge handed to set_transmitting, and an
audio-watchdog timer tick. -/
inductive CEv where
  | setTx (b : Bool)
  | watchdog (now : ℤ)
deriving DecidableEq

/-- One control event applied to the dialog. -/
def ctlStep (e : CEv) (s : DialogM) : DialogM × List AEv :=
  match e with
  | CEv.setTx b => set_transmitting b s
  | CEv.watchdog now => audio_watchdog_cb now s

/-- A run of control events over the dialog, collecting all audio-path
operations. -/
def ctlRun : List CEv → DialogM → DialogM × List AEv
  | [], s => (s, [])
  | e :: rest, s =>
      let r1 := ctlStep e s
      let r2 := ctlRun rest r1.1
      (r2.1, r1.2 ++ r2.2)

/-- Device open/close calls (as opposed to valve toggles). -/
def isDeviceOp : AEv → Bool
  | AEv.openCapture => true
  | AEv.closeCapture => true
  | AEv.openPlayback => true
  | AEv.closePlayback => true
  | _ => false

/-- One rate-conversion stage of the audio pipeline. -/
inductive StageKind where
  | interpolator
  | decimator
deriving DecidableEq

/-- A stage with its integer rate factor. -/
structure Stage where
  kind : StageKind
  factor : ℕ
deriving DecidableEq

/-- The receive path conversion stages built by init_audio_pipeline for a
given speaker device rate, with INTERNAL_SAMPLE_RATE = 16000: the
2:1 interpolator from the 8 kHz network rate to the internal rate is built
unconditionally (its guard is compiled out), and a 3:1 interpolator up to
48 kHz is added when the speaker rate is above 16000. -/
def rx_path_stages (spkr_rate : ℕ) : List Stage :=
  [⟨StageKind.interpolator, 2⟩] ++
    (if 16000 < spkr_rate then [⟨StageKind.interpolator, 3⟩] else [])

/-- The transmit path conversion stages built by init_audio_pipeline for a
given mic device rate, with INTERNAL_SAMPLE_RATE = 16000: a 3:1 decimator
from 48 kHz down to the internal rate when the mic rate is above 16000
(the 16-to-8 decimator is compiled out), then the unconditional 2:1
down sampler from the internal rate to the 8 kHz network rate. -/
def tx_path_stages (mic_rate : ℕ) : List Stage :=
  (if 16000 < mic_rate then [⟨StageKind.decimator, 3⟩] else []) ++
    [⟨StageKind.decimator, 2⟩]

/-- The stages of the receive path that sit between the internal rate and
the playback device: everything after the leading network-to-internal
interpolator. -/
def rx_device_stages (spkr_rate : ℕ) : List Stage :=
  (rx_path_stages spkr_rate).drop 1

/-- The stages of the transmit path that sit between the capture device and
the internal rate: everything before the trailing internal-to-network down
sampler. -/
def tx_device_stages (mic_rate : ℕ) : List Stage :=
  (tx_path_stages mic_rate).dropLast

/-- The composed conversion factor of a chain of stages. -/
def composed_factor (c : List Stage) : ℕ :=
  (c.map Stage.factor).prod

/-! Concrete states used by the witnesses. -/

/-- A connected half-duplex dialog in receive mode (the state right after
init_audio_pipeline and a transition to CONNECTED). -/
def dialogConnected : DialogM :=
  { state := ConnState.CONNECTED
    ptt_pressed := false
    vox_enabled := false
    vox_state := VState.IDLE
    is_transmitting := false
    is_receiving := false
    audio_full_duplex := true
    rem_audio_valve_open := true
    ptt_valve_open := false
    mic_open := false
    spkr_open := true
    last_audio_activity := 0 }

/-- The same dialog in half-duplex mode. -/
def dialogHalf : DialogM :=
  { dialogConnected with audio_full_duplex := false }

/-- A full-duplex dialog with both devices open. -/
def dialogFull : DialogM :=
  { dialogConnected with mic_open := true }

/-- A disconnected dialog in which PTT is still held and a transmission was
in progress. -/
def dialogDisc : DialogM :=
  { dialogHalf with
      state := ConnState.DISCONNECTED
      ptt_pressed := true
      is_transmitting := true
      ptt_valve_open := true }

/-! Helper lemmas for the dialog model. -/

lemma set_transmitting_full_duplex (b : Bool) (s : DialogM)
    (h : s.audio_full_duplex = true) :
    (set_transmitting b s).1.audio_full_duplex = true ∧
    (set_transmitting b s).2.filter isDeviceOp = [] := by
  unfold set_transmitting
  by_cases he : s.is_transmitting = b
  · simp [he, h]
  · cases b
    · simp [he, h, isDeviceOp]
    · simp [he, h, isDeviceOp]

lemma watchdog_no_ops (now : ℤ) (s : DialogM) :
    (audio_watchdog_cb now s).1.audio_full_duplex = s.audio_full_duplex ∧
    (audio_watchdog_cb now s).2 = [] := by
  unfold audio_watchdog_cb
  split
  · simp
  · split
    · simp
    · split
      · simp
      · simp

/-! Claim theorems about the transmit gate and duplex choreography. -/

/-- Claim C1: the transmit decision computed by check_transmit equals
(connectionState == CONNECTED) && (manualPtt || (voxEnabled && voxState !=
IDLE)); it is false whenever the connection state is not CONNECTED, and in
that case running check_transmit never opens the transmit valve. -/
theorem transmit_gate_correct :
    (∀ s : DialogM,
        check_transmit_decision s =
          spec_transmit_decision s.state s.ptt_pressed s.vox_enabled s.vox_state) ∧
    (∀ s : DialogM, s.state ≠ ConnState.CONNECTED →
        check_transmit_decision s = false) ∧
    (∀ s : DialogM, s.state ≠ ConnState.CONNECTED →
        AEv.openTxValve ∉ (check_transmit s).2 ∧
        (s.ptt_valve_open = s.is_transmitting →
          (check_transmit s).1.ptt_valve_open = false)) := by
  refine ⟨fun s => rfl, fun s h => by simp [check_transmit_decision, h], ?_⟩
  intro s h
  have hd : check_transmit_decision s = false := by
    simp [check_transmit_decision, h]
  unfold check_transmit
  rw [hd]
  unfold set_transmitting
  by_cases ht : s.is_transmitting = false
  · rw [if_pos ht]
    refine ⟨by simp, fun hv => ?_⟩
    rw [hv, ht]
  · rw [if_neg ht]
    by_cases hfd : s.audio_full_duplex = false
    · simp [hfd, open_audio_device]
    · simp [hfd, open_audio_device]

/-- Claim C1 witness: in a disconnected dialog with PTT held and a
transmission still flagged, the decision is false and check_transmit leaves
the transmit valve closed. -/
theorem transmit_gate_correct_witness :
    check_transmit_decision dialogDisc = false ∧
    AEv.openTxValve ∉ (check_transmit dialogDisc).2 ∧
    (check_transmit dialogDisc).1.ptt_valve_open = false :=
  ⟨transmit_gate_correct.2.1 dialogDisc (by decide),
   (transmit_gate_correct.2.2 dialogDisc (by decide)).1,
   (transmit_gate_correct.2.2 dialogDisc (by decide)).2 (by decide)⟩

/-- The four operations named by the half-duplex switch-to-transmit
choreography claim. -/
def choreoOp : AEv → Bool
  | AEv.closeRxValve => true
  | AEv.closePlayback => true
  | AEv.closeCapture => true
  | AEv.openCapture => true
  | _ => false

/-- Claim C2 counterexample: on a rising edge in half duplex the code
closes the capture device before the playback device, so the recorded
choreography differs from the claimed order (close receive valve, close
playback, close capture, open capture). -/
theorem half_duplex_tx_order_cex :
    (set_transmitting true dialogHalf).2.filter choreoOp =
      [AEv.closeRxValve, AEv.closeCapture, AEv.closePlayback, AEv.openCapture] ∧
    [AEv.closeRxValve, AEv.closeCapture, AEv.closePlayback, AEv.openCapture] ≠
      [AEv.closeRxValve, AEv.closePlayback, AEv.closeCapture, AEv.openCapture] := by
  decide

/-- Claim C2 (amended): on every rising edge of the transmit decision in
HALF duplex mode the choreography is, in exactly this order: close the
receive valve, close the capture device, close the playback device, open
the capture device (and then open the transmit valve); in particular the
receive valve is closed strictly before the capture device is opened. -/
theorem half_duplex_tx_order (s : DialogM)
    (hfd : s.audio_full_duplex = false) (hnt : s.is_transmitting = false) :
    (set_transmitting true s).2 =
      [AEv.closeRxValve, AEv.closeCapture, AEv.closePlayback, AEv.openCapture,
       AEv.openTxValve] ∧
    List.indexOf AEv.closeRxValve (set_transmitting true s).2 <
      List.indexOf AEv.openCapture (set_transmitting true s).2 := by
  have h2 : (set_transmitting true s).2 =
      [AEv.closeRxValve, AEv.closeCapture, AEv.closePlayback, AEv.openCapture,
       AEv.openTxValve] := by
    unfold set_transmitting open_audio_device
    simp [hnt, hfd]
  exact ⟨h2, by rw [h2]; decide⟩

/-- Claim C2 witness: the amended choreography on a concrete connected
half-duplex dialog. -/
theorem half_duplex_tx_order_witness :
    (set_transmitting true dialogHalf).2 =
      [AEv.closeRxValve, AEv.closeCapture, AEv.closePlayback, AEv.openCapture,
       AEv.openTxValve] ∧
    List.indexOf AEv.closeRxValve (set_transmitting true dialogHalf).2 <
      List.indexOf AEv.openCapture (set_transmitting true dialogHalf).2 :=
  half_duplex_tx_order dialogHalf (by decide) (by decide)

/-- Claim C6: in FULL duplex mode no device open or close call occurs from
any sequence of transmit-decision edges and watchdog ticks after call
setup. -/
theorem full_duplex_no_device_ops (evs : List CEv) (s : DialogM)
    (h : s.audio_full_duplex = true) :
    (ctlRun evs s).2.filter isDeviceOp = [] := by
  induction evs generalizing s with
  | nil => rfl
  | cons e rest ih =>
      cases e with
      | setTx b =>
          have hs := set_transmitting_full_duplex b s h
          show ((set_transmitting b s).2 ++
              (ctlRun rest (set_transmitting b s).1).2).filter isDeviceOp = []
          rw [List.filter_append, hs.2, ih _ hs.1]
          rfl
      | watchdog now =>
          have hw := watchdog_no_ops now s
          show ((audio_watchdog_cb now s).2 ++
              (ctlRun rest (audio_watchdog_cb now s).1).2).filter isDeviceOp = []
          rw [List.filter_append, hw.2, ih _ (by rw [hw.1]; exact h)]
          rfl

/-- Claim C6 witness: a concrete full-duplex run with a rising edge, a
watchdog tick and a falling edge performs no device call. -/
theorem full_duplex_no_device_ops_witness :
    (ctlRun [CEv.setTx true, CEv.watchdog 5, CEv.setTx false]
        dialogFull).2.filter isDeviceOp = [] :=
  full_duplex_no_device_ops [CEv.setTx true, CEv.watchdog 5, CEv.setTx false]
    dialogFull (by decide)

/-- Claim C7: with internal rate 16 kHz, a 48 kHz device yields exactly one
3:1 stage between device and internal rate (composed factor 3) on both the
receive and transmit paths, and a 16 kHz device yields an empty
pass-through chain. -/
theorem sample_chain_factors :
    rx_device_stages 48000 = [⟨StageKind.interpolator, 3⟩] ∧
    composed_factor (rx_device_stages 48000) = 3 ∧
    rx_device_stages 16000 = [] ∧
    tx_device_stages 48000 = [⟨StageKind.decimator, 3⟩] ∧
    composed_factor (tx_device_stages 48000) = 3 ∧
    tx_device_stages 16000 = [] := by
  decide

/-! Claim theorems about the Vox detector interface. -/

lemma setState_state (ns : VState) (s : VoxM) :
    (setState ns s).1.m_state = ns := by
  unfold setState
  by_cases h : ns = s.m_state
  · rw [if_pos h]
    exact h.symm
  · rw [if_neg h]
    dsimp only
    split <;> split <;> rfl

/-- Claim C9: disabling VOX forces the state to IDLE from every prior
state and emits the floor level reading of -60 dB; enabling changes
neither the state nor the level (nothing but the enabled flag). -/
theorem vox_disable_forces_idle (s : VoxM) :
    ((setEnabled false s).1.m_state = VState.IDLE ∧
      Sig.levelChanged (-60) ∈ (setEnabled false s).2) ∧
    ((setEnabled true s).1.m_state = s.m_state ∧
      (setEnabled true s).2 = [] ∧
      (setEnabled true s).1 = { s with m_enabled := true }) :=
  ⟨⟨setState_state VState.IDLE { s with m_enabled := false },
    List.mem_cons_self _ _⟩,
   ⟨rfl, rfl, rfl⟩⟩

/-- Claim C8: Vox::writeSamples rejects a non-positive sample count through
its assertion, and under the precondition count > 0 it returns exactly
count. -/
theorem vox_writeSamples_contract :
    (∀ (samples : List ℝ) (count : ℤ) (s : VoxM), count ≤ 0 →
        writeSamples samples count s = none) ∧
    (∀ (samples : List ℝ) (count : ℤ) (s : VoxM), 0 < count →
        ∃ s2 out, writeSamples samples count s = some (count, s2, out)) := by
  constructor
  · intro samples count s h
    unfold writeSamples
    simp [h]
  · intro samples count s h
    refine ⟨(writeDb (dbLevelOf samples) s).1, (writeDb (dbLevelOf samples) s).2, ?_⟩
    unfold writeSamples
    rw [if_neg (by omega)]

/-- Claim C8 witness: count 0 is rejected; a one-sample block is accepted
and returns 1. -/
theorem vox_writeSamples_contract_witness :
    writeSamples [] 0 voxInit = none ∧
    ∃ s2 out, writeSamples [(0 : ℝ)] 1 voxInit = some (1, s2, out) :=
  ⟨vox_writeSamples_contract.1 [] 0 voxInit (by decide),
   vox_writeSamples_contract.2 [(0 : ℝ)] 1 voxInit (by decide)⟩

/-- Claim C10: while VOX is disabled, a positive-count block is accepted
(returning count) with no signal emission and no state change at all. -/
theorem vox_writeSamples_disabled_frame (samples : List ℝ) (count : ℤ)
    (s : VoxM) (hc : 0 < count) (he : s.m_enabled = false) :
    writeSamples samples count s = some (count, s, []) := by
  unfold writeSamples
  rw [if_neg (by omega)]
  unfold writeDb
  rw [if_pos he]

/-- Claim C10 witness: the freshly constructed (disabled) detector accepts
a one-sample block unchanged and silently. -/
theorem vox_writeSamples_disabled_frame_witness :
    writeSamples [(1 : ℝ)] 1 voxInit = some (1, voxInit, []) :=
  vox_writeSamples_disabled_frame [(1 : ℝ)] 1 voxInit (by decide) (by decide)

/-! Claim C3: the emitted level range. -/

lemma setState_sigs (ns : VState) (s : VoxM) :
    (setState ns s).2 = [] ∨ (setState ns s).2 = [Sig.stateChanged ns] := by
  unfold setState
  split
  · exact Or.inl rfl
  · exact Or.inr rfl

lemma writeDb_levels (db l : ℤ) (s : VoxM)
    (h : Sig.levelChanged l ∈ (writeDb db s).2) : l = db := by
  unfold writeDb at h
  dsimp only at h
  split at h
  · simp at h
  · split at h
    · rcases setState_sigs VState.ACTIVE s with hs | hs <;> simp [hs] at h <;>
        exact h
    · split at h
      · rcases setState_sigs VState.HANG s with hs | hs <;> simp [hs] at h <;>
          exact h
      · simp at h
        exact h

lemma logb_thousandth : Real.logb 10 (0.001 : ℝ) = -3 := by
  have h : (0.001 : ℝ) = ((10 : ℝ) ^ (3 : ℕ))⁻¹ := by norm_num
  rw [h, Real.logb_inv, Real.logb_pow, Real.logb_self_eq_one (by norm_num)]
  norm_num

lemma dbLevelOfAvg_mem (avg : ℝ) :
    -60 ≤ dbLevelOfAvg avg ∧ dbLevelOfAvg avg ≤ 0 := by
  unfold dbLevelOfAvg
  by_cases h1 : avg > 1
  · rw [if_pos h1]
    exact ⟨by norm_num, le_refl 0⟩
  · rw [if_neg h1]
    by_cases h2 : avg > 0.001
    · rw [if_pos h2]
      have havg1 : avg ≤ 1 := not_lt.mp h1
      have hpos : (0 : ℝ) < avg := lt_trans (by norm_num) h2
      have hub : Real.logb 10 avg ≤ 0 :=
        Real.logb_nonpos (by norm_num) (le_of_lt hpos) havg1
      have hlb : (-3 : ℝ) < Real.logb 10 avg := by
        have h3 : Real.logb 10 (0.001 : ℝ) < Real.logb 10 avg :=
          Real.logb_lt_logb (by norm_num) (by norm_num) h2
        rw [logb_thousandth] at h3
        exact h3
      have hxub : 20 * Real.logb 10 avg ≤ 0 := by nlinarith
      have hxlb : (-60 : ℝ) < 20 * Real.logb 10 avg := by nlinarith
      unfold truncToZero
      by_cases hx : 0 ≤ 20 * Real.logb 10 avg
      · rw [if_pos hx]
        have h0 : 20 * Real.logb 10 avg = 0 := le_antisymm hxub hx
        rw [h0]
        norm_num
      · rw [if_neg hx]
        push_neg at hx
        constructor
        · have hle : 20 * Real.logb 10 avg ≤ (⌈20 * Real.logb 10 avg⌉ : ℝ) :=
            Int.le_ceil _
          have hcast : (-60 : ℝ) < (⌈20 * Real.logb 10 avg⌉ : ℝ) :=
            lt_of_lt_of_le hxlb hle
          exact_mod_cast le_of_lt hcast
        · have hz : 20 * Real.logb 10 avg ≤ ((0 : ℤ) : ℝ) := by
            exact_mod_cast le_of_lt hx
          exact Int.ceil_le.mpr hz
    · rw [if_neg h2]
      exact ⟨le_refl _, by norm_num⟩

lemma runBlocks_levels (blocks : List (List ℝ)) (s : VoxM) (l : ℤ)
    (h : Sig.levelChanged l ∈ (runBlocks blocks s).2) :
    -60 ≤ l ∧ l ≤ 0 := by
  induction blocks generalizing s with
  | nil => simp [runBlocks] at h
  | cons b rest ih =>
      unfold runBlocks at h
      rcases hw : writeSamples b (b.length : ℤ) s with _ | r
      · rw [hw] at h
        exact ih s h
      · rw [hw] at h
        dsimp only at h
        rw [List.mem_append] at h
        rcases h with h | h
        · unfold writeSamples at hw
          by_cases hc : (b.length : ℤ) ≤ 0
          · rw [if_pos hc] at hw
            cases hw
          · rw [if_neg hc] at hw
            have hr : ((b.length : ℤ), writeDb (dbLevelOf b) s) = r :=
              Option.some.inj hw
            rw [← hr] at h
            have hl : l = dbLevelOf b := writeDb_levels (dbLevelOf b) l s h
            rw [hl]
            exact dbLevelOfAvg_mem (avgOf b)
        · exact ih r.2.1 h

/-- Claim C3: every level the detector emits over any sequence of audio
blocks lies in [-60, 0]; a computed average-rectified level at or below
0.001 is reported as the floor -60 dB, a level at or above 1.0 as the
ceiling 0 dB, and otherwise as the int cast of 20 * log10(level), whose
argument is then strictly positive (the logarithm is never applied to a
zero or negative argument). -/
theorem vox_level_range :
    (∀ (blocks : List (List ℝ)) (s : VoxM) (l : ℤ),
        Sig.levelChanged l ∈ (runBlocks blocks s).2 → -60 ≤ l ∧ l ≤ 0) ∧
    (∀ avg : ℝ, avg ≤ 0.001 → dbLevelOfAvg avg = -60) ∧
    (∀ avg : ℝ, 1 ≤ avg → dbLevelOfAvg avg = 0) ∧
    (∀ avg : ℝ, 0.001 < avg → avg ≤ 1 →
        dbLevelOfAvg avg = truncToZero (20 * Real.logb 10 avg) ∧ 0 < avg) := by
  refine ⟨runBlocks_levels, ?_, ?_, ?_⟩
  · intro avg h
    unfold dbLevelOfAvg
    rw [if_neg (by norm_num; nlinarith), if_neg (by nlinarith)]
  · intro avg h
    unfold dbLevelOfAvg
    by_cases h1 : avg > 1
    · rw [if_pos h1]
    · rw [if_neg h1, if_pos (by nlinarith)]
      have heq : avg = 1 := le_antisymm (not_lt.mp h1) h
      rw [heq, Real.logb_one, mul_zero]
      norm_num [truncToZero]
  · intro avg h1 h2
    refine ⟨?_, lt_trans (by norm_num) h1⟩
    unfold dbLevelOfAvg
    by_cases hgt : avg > 1
    · exact absurd hgt (not_lt.mpr h2)
    · rw [if_neg hgt, if_pos h1]

/-- The freshly constructed detector with VOX enabled. -/
def voxEnabledInit : VoxM := { voxInit with m_enabled := true }

lemma avgOf_single_zero : avgOf [(0 : ℝ)] = 0 := by
  simp [avgOf, dcOffsetOf]

lemma dbLevelOf_single_zero : dbLevelOf [(0 : ℝ)] = -60 := by
  unfold dbLevelOf
  rw [avgOf_single_zero]
  unfold dbLevelOfAvg
  norm_num

lemma runBlocks_single_zero :
    (runBlocks [[(0 : ℝ)]] voxEnabledInit).2 = [Sig.levelChanged (-60)] := by
  unfold runBlocks writeSamples
  rw [if_neg (by norm_num)]
  dsimp only
  rw [dbLevelOf_single_zero]
  unfold runBlocks
  unfold writeDb
  norm_num [voxEnabledInit, voxInit]
  rw [if_neg (by decide : ¬(VState.IDLE = VState.ACTIVE))]

/-- Claim C3 witness: the level emitted for a silent one-sample block on
the enabled detector is the floor, and the three conversion branches at
concrete levels 0, 5 and 0.01. -/
theorem vox_level_range_witness :
    (-60 ≤ (-60 : ℤ) ∧ (-60 : ℤ) ≤ 0) ∧
    dbLevelOfAvg 0 = -60 ∧
    dbLevelOfAvg 5 = 0 ∧
    (dbLevelOfAvg 0.01 = truncToZero (20 * Real.logb 10 0.01) ∧
      (0 : ℝ) < 0.01) :=
  ⟨vox_level_range.1 [[(0 : ℝ)]] voxEnabledInit (-60)
      (by rw [runBlocks_single_zero]; exact List.mem_cons_self _ _),
   vox_level_range.2.1 0 (by norm_num),
   vox_level_range.2.2.1 5 (by norm_num),
   vox_level_range.2.2.2 0.01 (by norm_num) (by norm_num)⟩

/-! Claims C4 and C5: the hang state machine and timer discipline. -/

lemma writeDb_no_trigger (db : ℤ) (s : VoxM)
    (hdb : db ≤ s.m_threshold) (hst : s.m_state ≠ VState.ACTIVE) :
    (writeDb db s).1 = s := by
  unfold writeDb
  by_cases he : s.m_enabled = false
  · rw [if_pos he]
  · rw [if_neg he]
    dsimp only
    rw [if_neg (not_lt.mpr hdb), if_neg hst]

lemma idle_absorb (evs : List VEv) (s : VoxM)
    (hst : s.m_state = VState.IDLE) (hp : s.pending = [])
    (hplain : ∀ e ∈ evs, isPlain e = true)
    (hsub : ∀ e ∈ evs, subThr s.m_threshold e = true) :
    run evs s = s := by
  induction evs with
  | nil => rfl
  | cons e rest ih =>
      have hstep : step e s = s := by
        cases e with
        | write db =>
            have hdb : db ≤ s.m_threshold := by
              have hh := hsub (VEv.write db) (List.mem_cons_self _ _)
              simpa [subThr] using hh
            exact writeDb_no_trigger db s hdb (by rw [hst]; decide)
        | tick =>
            show (tick s).1 = s
            unfold tick
            rw [hp]
        | enable b =>
            exact absurd (hplain (VEv.enable b) (List.mem_cons_self _ _))
              (by simp [isPlain])
        | threshold t =>
            exact absurd (hplain (VEv.threshold t) (List.mem_cons_self _ _))
              (by simp [isPlain])
        | delay d =>
            exact absurd (hplain (VEv.delay d) (List.mem_cons_self _ _))
              (by simp [isPlain])
      show run rest (step e s) = s
      rw [hstep]
      exact ih (fun x hx => hplain x (List.mem_cons_of_mem _ hx))
        (fun x hx => hsub x (List.mem_cons_of_mem _ hx))

lemma setState_result (ns : VState) (s : VoxM) (hne : ns ≠ s.m_state) :
    (setState ns s).1 =
      if ns = VState.HANG then
        { s with
            m_state := ns
            pending := (if s.m_timer_id ≠ 0 then
                gSourceRemove s.m_timer_id s.pending else s.pending) ++
              [(s.next_id, s.m_delay)]
            m_timer_id := s.next_id
            next_id := s.next_id + 1 }
      else
        { s with
            m_state := ns
            m_timer_id := 0
            pending := if s.m_timer_id ≠ 0 then
                gSourceRemove s.m_timer_id s.pending else s.pending } := by
  unfold setState
  rw [if_neg hne]
  dsimp only
  by_cases ht : s.m_timer_id ≠ 0 <;> by_cases hh : ns = VState.HANG <;>
    simp [ht, hh] <;> omega

lemma hang_run_idle (evs : List VEv) : ∀ (sid r : ℕ) (s : VoxM),
    s.m_state = VState.HANG → s.pending = [(sid, r)] →
    (∀ e ∈ evs, isPlain e = true) →
    (∀ e ∈ evs, subThr s.m_threshold e = true) →
    ((run evs s).m_state = VState.IDLE ↔ max r 1 ≤ ticksIn evs) := by
  induction evs with
  | nil =>
      intro sid r s hst hp _ _
      constructor
      · intro h
        rw [show run [] s = s from rfl, hst] at h
        exact absurd h (by decide)
      · intro h
        rw [show ticksIn [] = 0 from rfl] at h
        omega
  | cons e rest ih =>
      intro sid r s hst hp hplain hsub
      cases e with
      | write db =>
          have hdb : db ≤ s.m_threshold := by
            have hh := hsub (VEv.write db) (List.mem_cons_self _ _)
            simpa [subThr] using hh
          have hstep : step (VEv.write db) s = s :=
            writeDb_no_trigger db s hdb (by rw [hst]; decide)
          show (run rest (step (VEv.write db) s)).m_state = VState.IDLE ↔
            max r 1 ≤ ticksIn (VEv.write db :: rest)
          rw [hstep, show ticksIn (VEv.write db :: rest) = ticksIn rest from rfl]
          exact ih sid r s hst hp
            (fun x hx => hplain x (List.mem_cons_of_mem _ hx))
            (fun x hx => hsub x (List.mem_cons_of_mem _ hx))
      | tick =>
          by_cases hr : r ≤ 1
          · have hstep : step VEv.tick s =
                { s with m_state := VState.IDLE, m_timer_id := 0,
                         pending := [] } := by
              show (tick s).1 = _
              unfold tick
              rw [hp]
              dsimp only
              rw [if_pos hr]
              show (setState VState.IDLE
                { s with pending := [], m_timer_id := 0 }).1 = _
              rw [setState_result VState.IDLE _
                (by dsimp only; rw [hst]; decide)]
              rw [if_neg (by decide : ¬(VState.IDLE = VState.HANG))]
              dsimp only
              rw [if_neg (by decide : ¬((0 : ℕ) ≠ 0))]
            have habs : run rest (step VEv.tick s) = step VEv.tick s := by
              refine idle_absorb rest _ (by rw [hstep]) (by rw [hstep]) ?_ ?_
              · exact fun x hx => hplain x (List.mem_cons_of_mem _ hx)
              · rw [hstep]
                exact fun x hx => hsub x (List.mem_cons_of_mem _ hx)
            constructor
            · intro _
              show max r 1 ≤ ticksIn rest + 1
              omega
            · intro _
              show (run rest (step VEv.tick s)).m_state = VState.IDLE
              rw [habs, hstep]
          · have hstep : step VEv.tick s = { s with pending := [(sid, r - 1)] } := by
              show (tick s).1 = _
              simp only [tick, hp, if_neg hr]

            have hiff := ih sid (r - 1) { s with pending := [(sid, r - 1)] }
              (by exact hst) rfl
              (fun x hx => hplain x (List.mem_cons_of_mem _ hx))
              (fun x hx => hsub x (List.mem_cons_of_mem _ hx))
            show (run rest (step VEv.tick s)).m_state = VState.IDLE ↔
              max r 1 ≤ ticksIn rest + 1
            rw [hstep, hiff]
            omega
      | enable b =>
          exact absurd (hplain (VEv.enable b) (List.mem_cons_self _ _))
            (by simp [isPlain])
      | threshold t =>
          exact absurd (hplain (VEv.threshold t) (List.mem_cons_self _ _))
            (by simp [isPlain])
      | delay d =>
          exact absurd (hplain (VEv.delay d) (List.mem_cons_self _ _))
            (by simp [isPlain])

lemma map_fst_singleton {l : List (ℕ × ℕ)} {a : ℕ}
    (h : l.map Prod.fst = [a]) : ∃ r, l = [(a, r)] := by
  cases l with
  | nil => simp at h
  | cons x t =>
      cases t with
      | nil =>
          simp only [List.map_cons, List.map_nil, List.cons.injEq, and_true] at h
          exact ⟨x.2, by rw [← h]⟩
      | cons y u => simp at h

lemma timerInv_setState (ns : VState) (s : VoxM) (h : TimerInv s) :
    TimerInv (setState ns s).1 := by
  obtain ⟨h1, h2, h3, h4⟩ := h
  by_cases heq : ns = s.m_state
  · have hres : (setState ns s).1 = s := by
      unfold setState
      rw [if_pos heq]
    rw [hres]
    exact ⟨h1, h2, h3, h4⟩
  · have hpend : (if s.m_timer_id ≠ 0 then gSourceRemove s.m_timer_id s.pending
        else s.pending) = [] := by
      by_cases ht : s.m_timer_id ≠ 0
      · rw [if_pos ht]
        obtain ⟨r, hr⟩ := map_fst_singleton (h3 ht)
        simp [gSourceRemove, hr]
      · rw [if_neg ht]
        push_neg at ht
        exact h2 ht
    rw [setState_result ns s heq]
    by_cases hh : ns = VState.HANG
    · rw [if_pos hh]
      refine ⟨by dsimp only; omega, ?_, ?_, ?_⟩
      · intro hz
        dsimp only at hz
        omega
      · intro _
        show ((if s.m_timer_id ≠ 0 then gSourceRemove s.m_timer_id s.pending
            else s.pending) ++ [(s.next_id, s.m_delay)]).map Prod.fst = _
        rw [hpend]
        rfl
      · constructor
        · intro _
          dsimp only
          omega
        · intro _
          exact hh
    · rw [if_neg hh]
      refine ⟨h1, fun _ => hpend, ?_, ?_⟩
      · intro hcon
        exact absurd rfl hcon
      · constructor
        · intro hcon
          exact absurd hcon hh
        · intro hcon
          exact absurd rfl hcon

lemma timerInv_step (e : VEv) (s : VoxM) (h : TimerInv s) :
    TimerInv (step e s) := by
  cases e with
  | write db =>
      show TimerInv (writeDb db s).1
      unfold writeDb
      by_cases he : s.m_enabled = false
      · rw [if_pos he]
        exact h
      · rw [if_neg he]
        dsimp only
        by_cases hdb : s.m_threshold < db
        · rw [if_pos hdb]
          exact timerInv_setState VState.ACTIVE s h
        · rw [if_neg hdb]
          by_cases hst : s.m_state = VState.ACTIVE
          · rw [if_pos hst]
            exact timerInv_setState VState.HANG s h
          · rw [if_neg hst]
            exact h
  | tick =>
      show TimerInv (tick s).1
      obtain ⟨h1, h2, h3, h4⟩ := h
      rcases hp : s.pending with _ | ⟨⟨sid, r⟩, rest⟩
      · unfold tick
        rw [hp]
        exact ⟨h1, h2, h3, h4⟩
      · have ht : s.m_timer_id ≠ 0 := by
          intro hz
          rw [h2 hz] at hp
          cases hp
        obtain ⟨r2, hr2⟩ := map_fst_singleton (h3 ht)
        have hinj : sid = s.m_timer_id ∧ r = r2 ∧ rest = [] := by
          rw [hp] at hr2
          injection hr2 with hx hy
          injection hx with hx1 hx2
          exact ⟨hx1, hx2, hy⟩
        obtain ⟨hsid, hrr, hrest⟩ := hinj
        unfold tick
        rw [hp]
        dsimp only
        by_cases hfire : r ≤ 1
        · rw [if_pos hfire]
          show TimerInv (setState VState.IDLE
            { s with pending := rest, m_timer_id := 0 }).1
          have hne : VState.IDLE ≠
              ({ s with pending := rest, m_timer_id := 0 } : VoxM).m_state := by
            dsimp only
            rw [h4.mpr ht]
            decide
          rw [setState_result _ _ hne]
          rw [if_neg (by decide : ¬(VState.IDLE = VState.HANG))]
          dsimp only
          rw [if_neg (by decide : ¬((0 : ℕ) ≠ 0))]
          refine ⟨h1, fun _ => hrest, ?_, ?_⟩
          · intro hcon
            exact absurd rfl hcon
          · constructor
            · intro hcon
              exact absurd hcon
                (show ¬(VState.IDLE = VState.HANG) by decide)
            · intro hcon
              exact absurd rfl hcon
        · rw [if_neg hfire]
          refine ⟨h1, ?_, ?_, ?_⟩
          · intro hz
            exact absurd hz ht
          · intro _
            show ((sid, r - 1) :: rest).map Prod.fst = [s.m_timer_id]
            rw [hsid, hrest]
            rfl
          · exact h4
  | enable b =>
      cases b
      · show TimerInv (setState VState.IDLE { s with m_enabled := false }).1
        exact timerInv_setState VState.IDLE _ h
      · exact h
  | threshold t =>
      show TimerInv (setThreshold t s)
      unfold setThreshold
      by_cases a : t < -60
      · rw [if_pos a]
        exact h
      · rw [if_neg a]
        by_cases b2 : t > 0
        · rw [if_pos b2]
          exact h
        · rw [if_neg b2]
          exact h
  | delay d =>
      show TimerInv (setDelay d s)
      unfold setDelay
      by_cases a : d < 0
      · rw [if_pos a]
        exact h
      · rw [if_neg a]
        exact h

lemma run_timerInv (evs : List VEv) (s : VoxM) (h : TimerInv s) :
    TimerInv (run evs s) := by
  induction evs generalizing s with
  | nil => exact h
  | cons e rest ih => exact ih (step e s) (timerInv_step e s h)

lemma reachable_timerInv (s : VoxM) (h : Reachable s) : TimerInv s := by
  obtain ⟨evs, hevs⟩ := h
  rw [← hevs]
  exact run_timerInv evs voxInit (by decide)

lemma step_hang_source (s : VoxM) (e : VEv)
    (h : (step e s).m_state = VState.HANG) :
    s.m_state = VState.ACTIVE ∨ s.m_state = VState.HANG := by
  cases e with
  | write db =>
      change (writeDb db s).1.m_state = VState.HANG at h
      unfold writeDb at h
      by_cases he : s.m_enabled = false
      · rw [if_pos he] at h
        exact Or.inr h
      · rw [if_neg he] at h
        dsimp only at h
        by_cases hdb : s.m_threshold < db
        · rw [if_pos hdb] at h
          rw [setState_state] at h
          exact absurd h (by decide)
        · rw [if_neg hdb] at h
          by_cases hst : s.m_state = VState.ACTIVE
          · exact Or.inl hst
          · rw [if_neg hst] at h
            exact Or.inr h
  | tick =>
      change (tick s).1.m_state = VState.HANG at h
      unfold tick at h
      rcases hp : s.pending with _ | ⟨⟨sid, r⟩, rest⟩
      · rw [hp] at h
        exact Or.inr h
      · rw [hp] at h
        dsimp only at h
        by_cases hr : r ≤ 1
        · rw [if_pos hr] at h
          change (setState VState.IDLE _).1.m_state = VState.HANG at h
          rw [setState_state] at h
          exact absurd h (by decide)
        · rw [if_neg hr] at h
          exact Or.inr h
  | enable b =>
      cases b
      · change (setState VState.IDLE
          { s with m_enabled := false }).1.m_state = VState.HANG at h
        rw [setState_state] at h
        exact absurd h (by decide)
      · exact Or.inr h
  | threshold t =>
      change (setThreshold t s).m_state = VState.HANG at h
      unfold setThreshold at h
      by_cases a : t < -60
      · rw [if_pos a] at h
        exact Or.inr h
      · rw [if_neg a] at h
        by_cases b2 : t > 0
        · rw [if_pos b2] at h
          exact Or.inr h
        · rw [if_neg b2] at h
          exact Or.inr h
  | delay d =>
      change (setDelay d s).m_state = VState.HANG at h
      unfold setDelay at h
      by_cases a : d < 0
      · rw [if_pos a] at h
        exact Or.inr h
      · rw [if_neg a] at h
        exact Or.inr h

lemma active_subthreshold_to_hang (s : VoxM) (db : ℤ) (hinv : TimerInv s)
    (he : s.m_enabled = true) (hst : s.m_state = VState.ACTIVE)
    (hdb : db ≤ s.m_threshold) :
    (step (VEv.write db) s).m_state = VState.HANG ∧
    (step (VEv.write db) s).pending = [(s.next_id, s.m_delay)] := by
  obtain ⟨h1, h2, h3, h4⟩ := hinv
  have ht0 : s.m_timer_id = 0 := by
    by_contra hcon
    have hh := h4.mpr hcon
    rw [hst] at hh
    exact absurd hh (by decide)
  have hstep : step (VEv.write db) s = (setState VState.HANG s).1 := by
    show (writeDb db s).1 = _
    unfold writeDb
    rw [he]
    rw [if_neg (by decide : ¬(true = false))]
    dsimp only
    rw [if_neg (not_lt.mpr hdb), if_pos hst]
  have hne : VState.HANG ≠ s.m_state := by
    rw [hst]
    decide
  rw [hstep, setState_result VState.HANG s hne, if_pos rfl]
  constructor
  · rfl
  · show ((if s.m_timer_id ≠ 0 then gSourceRemove s.m_timer_id s.pending
        else s.pending) ++ [(s.next_id, s.m_delay)]) = _
    rw [if_neg (by omega : ¬(s.m_timer_id ≠ 0)), h2 ht0]
    rfl

/-- Claim C4: HANG is only ever entered from ACTIVE; in ACTIVE with VOX
enabled, a block whose level is at or below the threshold moves the state
to HANG (never directly to IDLE) and arms the hang timer with the full
configured delay; and from HANG, over any sequence of audio blocks and
main-loop milliseconds in which every block is at or below the threshold,
IDLE is reached exactly when the remaining hang delay has elapsed. -/
theorem vox_hang_discipline :
    (∀ (s : VoxM) (e : VEv), (step e s).m_state = VState.HANG →
        s.m_state = VState.ACTIVE ∨ s.m_state = VState.HANG) ∧
    (∀ (s : VoxM) (db : ℤ), TimerInv s → s.m_enabled = true →
        s.m_state = VState.ACTIVE → db ≤ s.m_threshold →
        (step (VEv.write db) s).m_state = VState.HANG ∧
        (step (VEv.write db) s).pending = [(s.next_id, s.m_delay)]) ∧
    (∀ (evs : List VEv) (sid r : ℕ) (s : VoxM),
        s.m_state = VState.HANG → s.pending = [(sid, r)] →
        (∀ e ∈ evs, isPlain e = true) →
        (∀ e ∈ evs, subThr s.m_threshold e = true) →
        ((run evs s).m_state = VState.IDLE ↔ max r 1 ≤ ticksIn evs)) :=
  ⟨step_hang_source, active_subthreshold_to_hang,
   fun evs => hang_run_idle evs⟩

/-- A detector that was just enabled and driven to ACTIVE. -/
def voxActiveSt : VoxM :=
  { voxInit with m_enabled := true, m_state := VState.ACTIVE }

/-- The detector right after a sub-threshold block moved it from ACTIVE to
HANG (hang timer armed with the default 1000 ms delay, source id 1). -/
def voxHangSt : VoxM := step (VEv.write (-40)) voxActiveSt

/-- Claim C4 witness: the three parts at concrete states: a sub-threshold
block on the ACTIVE detector enters HANG with a freshly armed 1000 ms
timer, and one millisecond later the detector is not yet IDLE. -/
theorem vox_hang_discipline_witness :
    (voxActiveSt.m_state = VState.ACTIVE ∨ voxActiveSt.m_state = VState.HANG) ∧
    ((step (VEv.write (-40)) voxActiveSt).m_state = VState.HANG ∧
      (step (VEv.write (-40)) voxActiveSt).pending =
        [(voxActiveSt.next_id, voxActiveSt.m_delay)]) ∧
    ((run [VEv.tick] voxHangSt).m_state = VState.IDLE ↔
      max 1000 1 ≤ ticksIn [VEv.tick]) :=
  ⟨vox_hang_discipline.1 voxActiveSt (VEv.write (-40)) (by decide),
   vox_hang_discipline.2.1 voxActiveSt (-40) (by decide) (by decide) (by decide)
     (by decide),
   vox_hang_discipline.2.2 [VEv.tick] 1 1000 voxHangSt (by decide) (by decide)
     (by decide) (by decide)⟩

/-- Claim C5: in every reachable detector state at most one hang timer is
outstanding (none at all when m_timer_id is 0, and every pending source is
the one named by m_timer_id); from HANG an above-threshold block returns
the state to ACTIVE and cancels the pending timer; and once no source is
pending a main-loop tick changes nothing, so a cancelled (stale) timer can
never later fire and force IDLE. -/
theorem vox_single_timer :
    (∀ s : VoxM, Reachable s →
        s.pending.length ≤ 1 ∧
        (s.m_timer_id = 0 → s.pending = []) ∧
        (∀ t ∈ s.pending, t.1 = s.m_timer_id)) ∧
    (∀ (s : VoxM) (db : ℤ), TimerInv s → s.m_enabled = true →
        s.m_state = VState.HANG → s.m_threshold < db →
        (step (VEv.write db) s).m_state = VState.ACTIVE ∧
        (step (VEv.write db) s).pending = []) ∧
    (∀ s : VoxM, s.pending = [] → step VEv.tick s = s) := by
  refine ⟨?_, ?_, ?_⟩
  · intro s hr
    obtain ⟨h1, h2, h3, h4⟩ := reachable_timerInv s hr
    by_cases ht : s.m_timer_id = 0
    · rw [h2 ht]
      exact ⟨by simp, fun _ => rfl, by simp⟩
    · obtain ⟨r, hrp⟩ := map_fst_singleton (h3 ht)
      rw [hrp]
      refine ⟨by simp, fun hz => absurd hz ht, ?_⟩
      intro t htm
      simp only [List.mem_singleton] at htm
      rw [htm]
  · intro s db hinv he hst hdb
    obtain ⟨h1, h2, h3, h4⟩ := hinv
    have ht : s.m_timer_id ≠ 0 := h4.mp hst
    obtain ⟨r, hrp⟩ := map_fst_singleton (h3 ht)
    have hstep : step (VEv.write db) s = (setState VState.ACTIVE s).1 := by
      show (writeDb db s).1 = _
      unfold writeDb
      rw [he]
      rw [if_neg (by decide : ¬(true = false))]
      dsimp only
      rw [if_pos hdb]
    have hne : VState.ACTIVE ≠ s.m_state := by
      rw [hst]
      decide
    rw [hstep, setState_result VState.ACTIVE s hne]
    rw [if_neg (by decide : ¬(VState.ACTIVE = VState.HANG))]
    constructor
    · rfl
    · show (if s.m_timer_id ≠ 0 then gSourceRemove s.m_timer_id s.pending
          else s.pending) = []
      rw [if_pos ht, hrp]
      simp [gSourceRemove]
  · intro s hp
    show (tick s).1 = s
    unfold tick
    rw [hp]

/-- Claim C5 witness: the initial state has no outstanding timer; an
above-threshold block on the concrete HANG state returns to ACTIVE with the
timer cancelled; and a tick with nothing pending is a no-op. -/
theorem vox_single_timer_witness :
    (voxInit.pending.length ≤ 1 ∧
      (voxInit.m_timer_id = 0 → voxInit.pending = []) ∧
      (∀ t ∈ voxInit.pending, t.1 = voxInit.m_timer_id)) ∧
    ((step (VEv.write (-10)) voxHangSt).m_state = VState.ACTIVE ∧
      (step (VEv.write (-10)) voxHangSt).pending = []) ∧
    step VEv.tick voxInit = voxInit :=
  ⟨vox_single_timer.1 voxInit ⟨[], rfl⟩,
   vox_single_timer.2.1 voxHangSt (-10) (by decide) (by decide) (by decide)
     (by decide),
   vox_single_timer.2.2 voxInit rfl⟩

end Qtel
